import Mathlib

/-!
Verification of `flask_solrquery.py` (repository `lbjay/flask-solrquery`).

This file gives a shallow embedding of the core of the module — the
`SearchParams` dictionary wrapper, the `SearchRequest` query builder, the
`FlaskSolrQuery.set_defaults` merge, `SearchRequest.prepare`, and the
`SearchResponseMixin` response wrapper (facets, docset/highlight merge,
pagination) — and proves or refutes the specification claims about them.

Conventions of the embedding:
* Python dicts are modelled as association lists over `String` keys;
  `self[k] = v` replaces the entry in place (`aset`), matching dict update.
* Machine integers are `Int`; Python 2 `/` on ints is floor division, which
  for the positive divisors used here coincides with Lean's `Int` `/`
  (Euclidean division); `ceil(float(a)/float(b))` is modelled as the exact
  ceiling `-((-a) / b)` for positive `b`.
* Fallible Python code (statements that can raise) returns `Except PyError`.
* `deepcopy` is the identity on pure values, and Python's in-place mutation
  of `self.raw` is modelled by returning an updated record.
-/

/-- Kinds of Python exceptions relevant to the claims. `configError` stands
for the bare `Exception("You must set method to POST ...")` raised by
`SearchRequest.prepare` (the spec's `ConfigurationError`). -/
inductive PyError where
  | typeError
  | keyError
  | attributeError
  | configError
deriving DecidableEq

/-- A value stored in the `SearchParams` dictionary: the source stores
strings (flags, tokens), ints (rows, limits), and lists of strings
(`fq`, `facet.field`). -/
inductive PVal where
  | s (v : String)
  | i (v : Int)
  | ls (v : List String)
deriving DecidableEq

/-- Python truthiness for the values stored in `SearchParams`
(`x and True or False`). -/
def PVal.truthy : PVal → Bool
  | .s v => v != ""
  | .i v => v != 0
  | .ls v => v != []

/-- Dictionary lookup: `d.get(k)` / `d[k]`, first (unique) matching key. -/
def alookup {α : Type} : List (String × α) → String → Option α
  | [], _ => none
  | (k', v) :: rest, k => if k' = k then some v else alookup rest k

/-- Dictionary assignment `d[k] = v`: replace in place, else append. -/
def aset {α : Type} : List (String × α) → String → α → List (String × α)
  | [], k, v => [(k, v)]
  | (k', v') :: rest, k, v =>
      if k' = k then (k, v) :: rest else (k', v') :: aset rest k v

/-- `d.setdefault(k, v)` (effect on the mapping only). -/
def asetdefault {α : Type} (m : List (String × α)) (k : String) (v : α) :
    List (String × α) :=
  match alookup m k with
  | some _ => m
  | none => aset m k v

/-- `d.has_key(k)`. -/
def ahasKey {α : Type} (m : List (String × α)) (k : String) : Bool :=
  (alookup m k).isSome

abbrev SearchParams := List (String × PVal)

/-- `SearchParams.update`: `for k, v in dict(*args, **kwargs).iteritems(): self[k] = v`.
Each pair overwrites the existing entry for its key. -/
def SearchParams.update (m : SearchParams) (kvs : List (String × PVal)) :
    SearchParams :=
  kvs.foldl (fun acc kv => aset acc kv.1 kv.2) m

/-- `SearchParams.append`: `setdefault(key, [])`; append `val` unless already
present.  The branch for a non-list existing value is unreachable from this
codebase's API (Python would raise there); it is modelled as a no-op. -/
def SearchParams.append (m : SearchParams) (k : String) (v : String) :
    SearchParams :=
  match alookup m k with
  | none => aset m k (.ls [v])
  | some (.ls xs) => if v ∈ xs then m else aset m k (.ls (xs ++ [v]))
  | some _ => m

/-- `SearchRequest`: the query builder.  `params` is its `SearchParams`;
`url`, `method`, `data`, ... are the request-level attributes initialised to
`None` in `__init__`.  The opaque request attributes (`headers`, `files`,
`auth`, `cookies`, `hooks`) are modelled as optional opaque strings. -/
structure SearchRequest where
  q : String
  params : SearchParams
  url : Option String
  method : Option String
  headers : Option String
  files : Option String
  data : Option String
  auth : Option String
  cookies : Option String
  hooks : Option String
deriving DecidableEq

/-- `SearchRequest.__init__(q)`: `params = SearchParams(q=q)`, whose
`__init__` runs `update(wt='json', q=q)`; all request attributes `None`. -/
def SearchRequest.new (q : String) : SearchRequest :=
  ⟨q, [("wt", .s "json"), ("q", .s q)], none, none, none, none, none, none,
    none, none⟩

/-- `set_params(**kwargs)`. -/
def SearchRequest.set_params (r : SearchRequest) (kvs : List (String × PVal)) :
    SearchRequest :=
  { r with params := SearchParams.update r.params kvs }

/-- `set_rows(rows)`: `self.params.rows = rows`. -/
def SearchRequest.set_rows (r : SearchRequest) (rows : Int) : SearchRequest :=
  { r with params := aset r.params "rows" (.i rows) }

/-- `set_start(start)`: `self.params.start = start`. -/
def SearchRequest.set_start (r : SearchRequest) (start : Int) : SearchRequest :=
  { r with params := aset r.params "start" (.i start) }

/-- The scoped per-field parameter name `'f.%s.facet.%s' % (field, kind)`,
with `kind` one of `"limit"`, `"mincount"`, `"prefix"`. -/
def fkey (field kind : String) : String := "f." ++ field ++ ".facet." ++ kind

/-- The `facet.field` token appended by `add_facet`: the exclusion-tag form
`{!ex=dt key=<output_key>}<field>` when `output_key` is truthy, else the
plain field name.  (Braces written with escapes.) -/
def facetToken (field : String) (output_key : Option String) : String :=
  match output_key with
  | some k => if k = "" then field else "\x7b!ex=dt key=" ++ k ++ "\x7d" ++ field
  | none => field

/-- `add_facet(field, limit, mincount, output_key, prefix)`.  The numeric
options and the prefix are guarded by Python truthiness (`if limit:` etc.),
so `0` / `""` behave like `None`. -/
def SearchRequest.add_facet (r : SearchRequest) (field : String)
    (limit mincount : Option Int) (output_key : Option String)
    (pfx : Option String) : SearchRequest :=
  let ps := aset r.params "facet" (.s "true")
  let ps := asetdefault ps "facet.field" (.ls [])
  let ps := SearchParams.append ps "facet.field" (facetToken field output_key)
  let ps := match limit with
            | some n => if n = 0 then ps else aset ps (fkey field "limit") (.i n)
            | none => ps
  let ps := match mincount with
            | some n => if n = 0 then ps else aset ps (fkey field "mincount") (.i n)
            | none => ps
  let ps := match pfx with
            | some p => if p = "" then ps else aset ps (fkey field "prefix") (.s p)
            | none => ps
  { r with params := ps }

/-- `facets_on()`: `self.params.facet and True or False`. -/
def SearchRequest.facets_on (r : SearchRequest) : Bool :=
  match alookup r.params "facet" with
  | some v => v.truthy
  | none => false

/-- `add_highlight(field, count, fragsize)`. -/
def SearchRequest.add_highlight (r : SearchRequest) (field : String)
    (count fragsize : Option Int) : SearchRequest :=
  let ps := aset r.params "hl" (.s "true")
  let ps := match alookup ps "hl.fl" with
            | none => aset ps "hl.fl" (.s field)
            | some (.s existing) =>
                if field ∈ existing.splitOn "," then ps
                else aset ps "hl.fl" (.s (existing ++ "," ++ field))
            | some _ => ps
  let ps := match count with
            | some n => if n = 0 then ps else aset ps ("f." ++ field ++ ".hl.snippets") (.i n)
            | none => ps
  let ps := match fragsize with
            | some n => if n = 0 then ps else aset ps ("f." ++ field ++ ".hl.fragsize") (.i n)
            | none => ps
  { r with params := ps }

/-- `highlights_on()`: `self.params.hl and True or False`. -/
def SearchRequest.highlights_on (r : SearchRequest) : Bool :=
  match alookup r.params "hl" with
  | some v => v.truthy
  | none => false

/-- A word character for the regex `\w` (Python 2 `re`, no UNICODE flag):
`[a-zA-Z0-9_]`. -/
def isWordChar (c : Char) : Bool := c.isAlphanum || c = '_'

/-- One attempted match of `key=(\w+)}(\w+)` anchored after the literal
`key=`.  Both `\w+` groups are greedy; since `}` is not a word character the
match is deterministic. -/
def matchKeyTail (rest : List Char) : Option (List Char × List Char) :=
  let w1 := rest.takeWhile isWordChar
  match rest.dropWhile isWordChar with
  | '\x7d' :: r2 =>
      let w2 := r2.takeWhile isWordChar
      if w1 = [] ∨ w2 = [] then none else some (w1, w2)
  | _ => none

/-- Attempt the pattern at the head of the character list. -/
def tryKeyAt : List Char → Option (List Char × List Char)
  | 'k' :: 'e' :: 'y' :: '=' :: rest => matchKeyTail rest
  | _ => none

/-- `re.search("key=(\\w+)\x7d(\\w+)", s)`: scan for the leftmost position
where the pattern matches; `None` if it matches nowhere. -/
def reSearchKey : List Char → Option (List Char × List Char)
  | [] => none
  | c :: rest =>
      match tryKeyAt (c :: rest) with
      | some p => some p
      | none => reSearchKey rest

/-- The same regex search on a `String`, returning `m.groups()`. -/
def reSearchKeyStr (s : String) : Option (String × String) :=
  match reSearchKey s.data with
  | some (k, f) => some (String.mk k, String.mk f)
  | none => none

/-- Boolean string-prefix test (`str.startswith`). -/
def isPfx : List Char → List Char → Bool
  | [], _ => true
  | _ :: _, [] => false
  | a :: as, b :: bs => (a == b) && isPfx as bs

/-- `s.startswith(p)`. -/
def strStartsWith (s p : String) : Bool := isPfx p.data s.data

/-- One decoded facet descriptor as returned by `get_facets`:
`(fl, limit, mincount, output_key, prefix)`, where the scoped options are
the raw parameter values (`None` when absent). -/
abbrev FacetOut := String × Option PVal × Option PVal × Option String × Option PVal

/-- The body of the `get_facets` loop for one `facet.field` token: tokens
starting with `{!ex=dt` are decoded through the regex — whose failure makes
Python call `.groups()` on `None`, an `AttributeError`. -/
def decodeFacetField (ps : SearchParams) (fl : String) : Except PyError FacetOut :=
  if strStartsWith fl "\x7b!ex=dt" then
    match reSearchKeyStr fl with
    | some (k, f) =>
        .ok (f, alookup ps (fkey f "limit"), alookup ps (fkey f "mincount"),
             some k, alookup ps (fkey f "prefix"))
    | none => .error .attributeError
  else
    .ok (fl, alookup ps (fkey fl "limit"), alookup ps (fkey fl "mincount"),
         none, alookup ps (fkey fl "prefix"))

/-- Sequential effectful map (a Python `for` loop collecting results,
stopping at the first raised exception). -/
def exceptList {α β : Type} (f : α → Except PyError β) :
    List α → Except PyError (List β)
  | [] => .ok []
  | a :: rest =>
      match f a with
      | .error e => .error e
      | .ok b =>
          match exceptList f rest with
          | .error e => .error e
          | .ok bs => .ok (b :: bs)

/-- `get_facets()`.  Iterating a non-list `facet.field` value is unreachable
from the builder API and modelled as a `TypeError`. -/
def SearchRequest.get_facets (r : SearchRequest) : Except PyError (List FacetOut) :=
  if r.facets_on then
    match alookup r.params "facet.field" with
    | none => .ok []
    | some (.ls fls) => exceptList (decodeFacetField r.params) fls
    | some _ => .error .typeError
  else .ok []

/-- Truthiness of `a or b` for optional strings (`None` and `''` falsy). -/
def pyOrS : Option String → Option String → Option String
  | some v, b => if v = "" then b else some v
  | none, b => b

/-- Truthiness of an optional string. -/
def optSTruthy : Option String → Bool
  | some v => v != ""
  | none => false

/-- The argument record passed to `requests.Request` by `prepare` (the
URL-encoding performed afterwards by the transport library is external). -/
structure PreparedRequest where
  method : String
  url : Option String
  params : SearchParams
  headers : Option String
  files : Option String
  data : Option String
  auth : Option String
  cookies : Option String
  hooks : Option String
deriving DecidableEq

/-- `SearchRequest.prepare(url, method, headers, files, data, auth, cookies,
hooks)`: raises when `(method or self.method) == 'GET' and (data or
self.data)`; otherwise builds the request with method
`method or self.method or 'GET'`. -/
def SearchRequest.prepare (r : SearchRequest)
    (url method headers files data auth cookies hooks : Option String) :
    Except PyError PreparedRequest :=
  if pyOrS method r.method = some "GET" && optSTruthy (pyOrS data r.data) then
    .error .configError
  else
    .ok { method := (pyOrS (pyOrS method r.method) (some "GET")).getD "GET"
        , url := pyOrS url r.url
        , params := r.params
        , headers := pyOrS headers r.headers
        , files := pyOrS files r.files
        , data := pyOrS data r.data
        , auth := pyOrS auth r.auth
        , cookies := pyOrS cookies r.cookies
        , hooks := pyOrS hooks r.hooks }

/-- The client state relevant to `set_defaults`: configured base URL, the
optional `SOLRQUERY_EXTRA_PARAMS` mapping, and the configured HTTP method. -/
structure FlaskSolrQuery where
  query_url : String
  extra_params : Option (List (String × PVal))
  request_http_method : String
deriving DecidableEq

/-- `FlaskSolrQuery.set_defaults(req, query_url)`: set the URL (override
wins), push every configured extra parameter into the builder's params via
`set_params`, then force the client's HTTP method. -/
def FlaskSolrQuery.set_defaults (c : FlaskSolrQuery) (req : SearchRequest)
    (qurl : Option String) : SearchRequest :=
  let req1 := { req with url := some (match qurl with
                                      | none => c.query_url
                                      | some u => u) }
  let req2 := match c.extra_params with
              | none => req1
              | some extra => req1.set_params extra
  { req2 with method := some c.request_http_method }

/-- JSON values as decoded from the service response. -/
inductive JVal where
  | jnull
  | str (s : String)
  | int (n : Int)
  | arr (xs : List JVal)
  | obj (m : List (String × JVal))

abbrev Json := List (String × JVal)

/-- The pagination dictionary built by `get_pagination`. -/
structure Pagination where
  max_pagination_len : Int
  num_total_pages : Int
  current_page : Int
  pages_before : List Int
  pages_after : List Int
deriving DecidableEq

/-- `SearchResponseMixin`: deep copy of the raw JSON object (top level is an
object in every response), the originating request, and the lazily created
`pagination` attribute (absent until the first `get_pagination` call). -/
structure SearchResponseMixin where
  raw : Json
  request : SearchRequest
  pagination : Option Pagination

/-- `SearchResponseMixin.__init__(raw, request)`. -/
def SearchResponseMixin.new (raw : Json) (request : SearchRequest) :
    SearchResponseMixin :=
  ⟨raw, request, none⟩

/-- `get_hits()`: `self.raw.get('response',{}).get('numFound',0)`.  Claims
use integer payloads; other shapes default to `0` here. -/
def SearchResponseMixin.get_hits (r : SearchResponseMixin) : Int :=
  match alookup r.raw "response" with
  | some (.obj m) =>
      match alookup m "numFound" with
      | some (.int n) => n
      | _ => 0
  | _ => 0

/-- `get_start_count()`: `self.raw.get('response',{}).get('start',0)`. -/
def SearchResponseMixin.get_start_count (r : SearchResponseMixin) : Int :=
  match alookup r.raw "response" with
  | some (.obj m) =>
      match alookup m "start" with
      | some (.int n) => n
      | _ => 0
  | _ => 0

/-- Exact ceiling of `a / b` for `b > 0`: models
`int(ceil(float(a) / float(b)))`. -/
def ceilDivI (a b : Int) : Int := -((-a) / b)

/-- `range(1, n+1)` as a list of `Int`. -/
def intRange1 (n : Int) : List Int :=
  (List.range n.toNat).map (fun i : Nat => (i : Int) + 1)

/-- Python's `sorted` on a list of ints. -/
def sortInt (l : List Int) : List Int := List.insertionSort (· ≤ ·) l

/-- The body of `get_pagination` (source lines 465-485), as a function of
hit count, start offset, rows per page and window length. -/
def paginationCompute (hits start_count rows_per_page max_pagination_len : Int) :
    Pagination :=
  let num_total_pages := ceilDivI hits rows_per_page
  let current_page := start_count / rows_per_page + 1
  let mnp := min max_pagination_len num_total_pages
  let max_num_pages_before := ceilDivI mnp 2 - 1
  let max_num_pages_after := mnp / 2
  let distance_to_1 := current_page - 1
  let distance_to_max := num_total_pages - current_page
  let num_pages_before := min distance_to_1 max_num_pages_before
  let num_pages_after := min distance_to_max max_num_pages_after
  let num_pages_after := if num_pages_before < max_num_pages_before
                         then num_pages_after + (max_num_pages_before - num_pages_before)
                         else num_pages_after
  let num_pages_before := if num_pages_after < max_num_pages_after
                          then num_pages_before + (max_num_pages_after - num_pages_after)
                          else num_pages_before
  { max_pagination_len := max_pagination_len
  , num_total_pages := num_total_pages
  , current_page := current_page
  , pages_before := sortInt ((intRange1 num_pages_before).map (fun i => current_page - i))
  , pages_after := sortInt ((intRange1 num_pages_after).map (fun i => current_page + i)) }

/-- `get_pagination(rows_per_page, max_pagination_len)`: compute once and
cache on the instance; any later call returns the cached value. -/
def SearchResponseMixin.get_pagination (r : SearchResponseMixin)
    (rows_per_page max_pagination_len : Int) :
    Pagination × SearchResponseMixin :=
  match r.pagination with
  | some p => (p, r)
  | none =>
      let p := paginationCompute r.get_hits r.get_start_count rows_per_page
                 max_pagination_len
      (p, { r with pagination := some p })

/-- One step of the highlight merge: `doc['highlights'] =
self.raw['highlighting'][doc['id']]`.  A document without an `'id'`, or an
id missing from the (string-keyed) highlighting map, is a `KeyError`. -/
def mergeDoc (hm : Json) (doc : JVal) : Except PyError JVal :=
  match doc with
  | .obj dm =>
      match alookup dm "id" with
      | some (.str sid) =>
          match alookup hm sid with
          | some hl => .ok (.obj (aset dm "highlights" hl))
          | none => .error .keyError
      | some _ => .error .keyError
      | none => .error .keyError
  | _ => .error .typeError

/-- The `for doc in docset:` merge loop. -/
def mergeDocs (hm : Json) : List JVal → Except PyError (List JVal)
  | [] => .ok []
  | d :: ds =>
      match mergeDoc hm d with
      | .error e => .error e
      | .ok d' =>
          match mergeDocs hm ds with
          | .error e => .error e
          | .ok ds' => .ok (d' :: ds')

/-- `get_docset()`: return `raw['response'].get('docs', [])`, merging each
document's highlight fragments into it (mutating `raw`) when highlighting
was requested and the payload has a `highlighting` key. -/
def SearchResponseMixin.get_docset (r : SearchResponseMixin) :
    Except PyError (JVal × SearchResponseMixin) :=
  match alookup r.raw "response" with
  | none => .ok (.arr [], r)
  | some (.obj rm) =>
      let docset := (alookup rm "docs").getD (.arr [])
      if r.request.highlights_on then
        match alookup r.raw "highlighting" with
        | some (.obj hm) =>
            match docset with
            | .arr docs =>
                match mergeDocs hm docs with
                | .ok docs2 =>
                    .ok (.arr docs2,
                      { r with raw := aset r.raw "response"
                                        (.obj (aset rm "docs" (.arr docs2))) })
                | .error e => .error e
            | _ => .error .typeError
        | some _ => .error .typeError
        | none => .ok (docset, r)
      else .ok (docset, r)
  | some _ => .error .attributeError

/-- Python list slicing `l[a:b]` with clamping and negative indices. -/
def pySlice {α : Type} (l : List α) (a b : Int) : List α :=
  let n : Int := l.length
  let a2 := if a < 0 then max 0 (n + a) else min a n
  let b2 := if b < 0 then max 0 (n + b) else min b n
  (l.drop a2.toNat).take (b2.toNat - a2.toNat)

/-- `get_doc_values(field, start=0, stop=None)`:
`[x.get(field, None) for x in docs[int(start):int(stop)]]`.  `int(None)`
raises a `TypeError`, so a call that leaves `stop` unset fails whenever
`get_docset` itself returned. -/
def SearchResponseMixin.get_doc_values (r : SearchResponseMixin)
    (field : String) (start_idx : Int) (stop : Option Int) :
    Except PyError (List (Option JVal) × SearchResponseMixin) :=
  match r.get_docset with
  | .error e => .error e
  | .ok (docsV, r2) =>
      match stop with
      | none => .error .typeError
      | some stopN =>
          match docsV with
          | .arr docs =>
              match exceptList
                  (fun x => match x with
                            | .obj m => .ok (alookup m field)
                            | _ => .error .attributeError)
                  (pySlice docs start_idx stopN) with
              | .ok vals => .ok (vals, r2)
              | .error e => .error e
          | _ => .error .typeError

/-- `get_all_facets()`: empty dict unless the originating request turned
faceting on, else `raw.get('facet_counts', {})`. -/
def SearchResponseMixin.get_all_facets (r : SearchResponseMixin) : JVal :=
  if !r.request.facets_on then .obj []
  else (alookup r.raw "facet_counts").getD (.obj [])

/-- `get_all_facet_fields()`: `get_all_facets().get('facet_fields', {})`. -/
def SearchResponseMixin.get_all_facet_fields (r : SearchResponseMixin) :
    Except PyError JVal :=
  match r.get_all_facets with
  | .obj m => .ok ((alookup m "facet_fields").getD (.obj []))
  | _ => .error .attributeError

/-- The ascending run of `n` consecutive integers starting at `lo`. -/
def ascRange (lo : Int) (n : Nat) : List Int :=
  (List.range n).map (fun i : Nat => lo + (i : Int))


/-- Boolean check: nonempty and all word characters (`\w+`). -/
def wordChk (s : String) : Bool := !s.data.isEmpty && s.data.all isWordChar

/-- One facet descriptor as passed to `add_facet`. -/
structure FacetSpec where
  field : String
  limit : Option Int
  mincount : Option Int
  output_key : Option String
  pfx : Option String
deriving DecidableEq

/-- The `facet.field` token `add_facet` stores for a descriptor. -/
def tokenOf (d : FacetSpec) : String := facetToken d.field d.output_key

/-- The tuple `get_facets` should decode for a descriptor. -/
def expectedFacet (d : FacetSpec) : FacetOut :=
  (d.field, d.limit.map PVal.i, d.mincount.map PVal.i, d.output_key,
   d.pfx.map PVal.s)

/-- Fold a sequence of `add_facet` calls over a request. -/
def addFacets (r : SearchRequest) (ds : List FacetSpec) : SearchRequest :=
  ds.foldl (fun acc d =>
    acc.add_facet d.field d.limit d.mincount d.output_key d.pfx) r

/-- A well-formed descriptor: word-character field and output key, and
options that are either omitted or truthy. -/
def goodSpec (d : FacetSpec) : Bool :=
  wordChk d.field &&
  (match d.output_key with | some k => wordChk k | none => true) &&
  d.limit != some 0 && d.mincount != some 0 && d.pfx != some ""

/-! ### Association-list lemmas -/

theorem alookup_aset {α : Type} (m : List (String × α)) (k k' : String) (v : α) :
    alookup (aset m k v) k' = if k = k' then some v else alookup m k' := by
  induction m with
  | nil => simp [aset, alookup]
  | cons a rest ih =>
      obtain ⟨k0, v0⟩ := a
      by_cases h1 : k0 = k
      · subst h1
        by_cases h2 : k0 = k' <;> simp [aset, alookup, h2]
      · by_cases h2 : k0 = k'
        · subst h2
          have hk : ¬(k = k0) := fun hh => h1 hh.symm
          simp [aset, alookup, h1, hk]
        · simp [aset, alookup, h1, h2, ih]

theorem alookup_eq_none_of_not_mem {α : Type} (m : List (String × α)) (k : String)
    (h : k ∉ m.map Prod.fst) : alookup m k = none := by
  induction m with
  | nil => rfl
  | cons a rest ih =>
      obtain ⟨k0, v0⟩ := a
      simp only [List.map_cons, List.mem_cons] at h
      push_neg at h
      have hne : ¬(k0 = k) := fun hh => h.1 hh.symm
      simp [alookup, hne, ih h.2]

theorem alookup_update (kvs : List (String × PVal)) (m : SearchParams) (k : String)
    (hnd : (kvs.map Prod.fst).Nodup) :
    alookup (SearchParams.update m kvs) k =
      match alookup kvs k with
      | some v => some v
      | none => alookup m k := by
  induction kvs generalizing m with
  | nil => simp [SearchParams.update, alookup]
  | cons a rest ih =>
      simp only [List.map_cons, List.nodup_cons] at hnd
      have step : SearchParams.update m (a :: rest) =
          SearchParams.update (aset m a.1 a.2) rest := rfl
      rw [step, ih _ hnd.2]
      by_cases h1 : a.1 = k
      · have hnone : alookup rest k = none := by
          apply alookup_eq_none_of_not_mem
          rw [← h1]
          exact hnd.1
        simp [alookup, h1, hnone, alookup_aset]
      · simp [alookup, h1, alookup_aset]

/-! ### C1: defaults merge precedence -/

/-- C1 (counterexample): the claim says builder-set values win over global
extra parameters in `set_defaults`, but `SearchParams.update` executes
`self[k] = v` for every extra pair, so the global value overwrites the
builder's `rows=5` with `7`. -/
theorem C1_counterexample :
    alookup ((FlaskSolrQuery.mk "http://u" (some [("rows", PVal.i 7)]) "GET").set_defaults
        ((SearchRequest.new "test").set_rows 5) none).params "rows" = some (PVal.i 7) ∧
    alookup ((FlaskSolrQuery.mk "http://u" (some [("rows", PVal.i 7)]) "GET").set_defaults
        ((SearchRequest.new "test").set_rows 5) none).params "rows" ≠ some (PVal.i 5) := by
  decide

/-- C1 (amended): after `FlaskSolrQuery.set_defaults`, a key present among
the configured global extra parameters maps to the *global* value (global
extras overwrite the builder on collision); keys not among the extras keep
the builder's value. -/
theorem C1_amended_global_extras_override (c : FlaskSolrQuery)
    (req : SearchRequest) (qurl : Option String)
    (extra : List (String × PVal)) (k : String)
    (hx : c.extra_params = some extra)
    (hnd : (extra.map Prod.fst).Nodup) :
    alookup ((c.set_defaults req qurl).params) k =
      match alookup extra k with
      | some v => some v
      | none => alookup req.params k := by
  simp only [FlaskSolrQuery.set_defaults, hx, SearchRequest.set_params]
  exact alookup_update extra req.params k hnd

/-- Witness for C1 (amended) at a concrete collision: builder `rows=5`,
global extras `rows=7`. -/
theorem C1_amended_witness :
    alookup (((FlaskSolrQuery.mk "http://u" (some [("rows", PVal.i 7)]) "GET").set_defaults
        ((SearchRequest.new "test").set_rows 5) none).params) "rows" =
      match alookup [("rows", PVal.i 7)] "rows" with
      | some v => some v
      | none => alookup ((SearchRequest.new "test").set_rows 5).params "rows" := by
  exact C1_amended_global_extras_override
    (FlaskSolrQuery.mk "http://u" (some [("rows", PVal.i 7)]) "GET")
    ((SearchRequest.new "test").set_rows 5) none [("rows", PVal.i 7)] "rows"
    rfl (by decide)

/-! ### C2: malformed facet token decoding -/

/-- C2 (code bug): the spec requires malformed `facet.field` tokens to be
decoded soft as a plain field name, but `get_facets` matches
`key=(\w+)\x7d(\w+)` without a `None` check: the token
`\x7b!ex=dt key=a-b\x7dc` (stored by `add_facet('c', output_key='a-b')`)
starts with `\x7b!ex=dt`, the regex search fails on the `-`, and
`m.groups()` raises an `AttributeError`. -/
theorem C2_malformed_token_raises :
    ((SearchRequest.new "q").add_facet "c" none none (some "a-b") none).get_facets =
      .error .attributeError := rfl

/-! ### C3: GET + body rejection -/

/-- C3 (code bug): `prepare` checks `(method or self.method) == 'GET'`,
omitting the `'GET'` default used one line later.  With no explicit method
and no stored method but a non-empty body, the resolved method is GET and a
body is supplied, yet `prepare` succeeds and builds a GET request carrying
the body — contradicting both the claim and the method's own docstring.
With an explicit GET it does raise, as the claim says. -/
theorem C3_default_get_with_body_not_rejected :
    (SearchRequest.new "x").prepare none none none none (some "body") none none none =
      .ok ⟨"GET", none, [("wt", PVal.s "json"), ("q", PVal.s "x")], none, none,
           some "body", none, none, none⟩ ∧
    (SearchRequest.new "x").prepare none (some "GET") none none (some "body") none none none =
      .error .configError :=
  ⟨rfl, rfl⟩

/-! ### C5: concrete pagination example -/

/-- C5 (counterexample): on hits=95, start=40, `get_pagination(10, 5)` the
claim's split rule (nominal before=1, after=2) would put exactly one page
before the current page; the code's nominal split for a window of 5 is
before=2, after=2, so `pages_before` is `[3, 4]`, not `[4]`. -/
theorem C5_counterexample :
    ((SearchResponseMixin.new
        [("response", JVal.obj [("numFound", JVal.int 95), ("start", JVal.int 40)])]
        (SearchRequest.new "q")).get_pagination 10 5).1.pages_before = [3, 4] ∧
    ((SearchResponseMixin.new
        [("response", JVal.obj [("numFound", JVal.int 95), ("start", JVal.int 40)])]
        (SearchRequest.new "q")).get_pagination 10 5).1.pages_before ≠ [4] := by
  decide

/-- C5 (amended): on hits=95, start=40, `get_pagination(10, 5)` returns
current_page=5, num_total_pages=10, and a window of exactly
min(5, 10) = 5 consecutive pages with the code's nominal split before=2,
after=2 (no clamping needed): pages_before = [3,4], pages_after = [6,7]. -/
theorem C5_amended_pagination_example :
    ((SearchResponseMixin.new
        [("response", JVal.obj [("numFound", JVal.int 95), ("start", JVal.int 40)])]
        (SearchRequest.new "q")).get_pagination 10 5).1 =
      ⟨5, 10, 5, [3, 4], [6, 7]⟩ ∧
    ([3, 4].length + 1 + [6, 7].length = 5) := by
  decide

/-! ### C7: pagination memoization -/

/-- C7: on any freshly constructed `SearchResponseMixin`, a second
`get_pagination` call — with arbitrary, possibly different arguments —
returns exactly the value computed and cached by the first call. -/
theorem C7_memoization (raw : Json) (req : SearchRequest) (r1 w1 r2 w2 : Int) :
    ((((SearchResponseMixin.new raw req).get_pagination r1 w1).2).get_pagination r2 w2).1 =
      ((SearchResponseMixin.new raw req).get_pagination r1 w1).1 := rfl

/-! ### C8: facet-off guard -/

/-- C8: when the originating query did not turn faceting on,
`get_all_facets` and `get_all_facet_fields` both return the empty mapping,
whatever the raw payload contains. -/
theorem C8_facet_off_guard (raw : Json) (req : SearchRequest)
    (h : req.facets_on = false) :
    (SearchResponseMixin.new raw req).get_all_facets = JVal.obj [] ∧
    (SearchResponseMixin.new raw req).get_all_facet_fields = .ok (JVal.obj []) := by
  constructor
  · simp [SearchResponseMixin.get_all_facets, SearchResponseMixin.new, h]
  · simp [SearchResponseMixin.get_all_facet_fields,
      SearchResponseMixin.get_all_facets, SearchResponseMixin.new, h, alookup]

/-- Witness for C8: a fresh request never called `add_facet`, yet the raw
payload carries a facet-shaped `facet_counts` key; both accessors still
return the empty mapping. -/
theorem C8_facet_off_guard_witness :
    (SearchResponseMixin.new
        [("facet_counts", JVal.obj [("facet_fields",
            JVal.obj [("color", JVal.arr [JVal.str "red", JVal.int 3])])])]
        (SearchRequest.new "q")).get_all_facets = JVal.obj [] ∧
    (SearchResponseMixin.new
        [("facet_counts", JVal.obj [("facet_fields",
            JVal.obj [("color", JVal.arr [JVal.str "red", JVal.int 3])])])]
        (SearchRequest.new "q")).get_all_facet_fields = .ok (JVal.obj []) :=
  C8_facet_off_guard _ (SearchRequest.new "q") rfl

/-! ### C10: get_doc_values without stop -/

/-- C10: whenever `get_docset` itself returns (so no earlier exception
pre-empts it), calling `get_doc_values` with the default `stop=None` raises
a `TypeError`, because `int(None)` is evaluated before slicing. -/
theorem C10_missing_stop_raises (r : SearchResponseMixin) (field : String)
    (start_idx : Int) (d : JVal × SearchResponseMixin)
    (h : r.get_docset = .ok d) :
    r.get_doc_values field start_idx none = .error .typeError := by
  simp [SearchResponseMixin.get_doc_values, h]

/-- Witness for C10 on a concrete two-document response. -/
theorem C10_missing_stop_raises_witness :
    (SearchResponseMixin.new
        [("response", JVal.obj [("docs", JVal.arr [JVal.obj [("id", JVal.str "1")]])])]
        (SearchRequest.new "q")).get_doc_values "title" 0 none = .error .typeError :=
  C10_missing_stop_raises _ "title" 0
    (JVal.arr [JVal.obj [("id", JVal.str "1")]],
      SearchResponseMixin.new
        [("response", JVal.obj [("docs", JVal.arr [JVal.obj [("id", JVal.str "1")]])])]
        (SearchRequest.new "q")) rfl

/-! ### C6: the pagination window in general -/

theorem ascRange_length (lo : Int) (n : Nat) : (ascRange lo n).length = n := by
  simp [ascRange]

theorem ascRange_succ (lo : Int) (n : Nat) :
    ascRange lo (n + 1) = lo :: ascRange (lo + 1) n := by
  simp only [ascRange, List.range_succ_eq_map, List.map_cons, List.map_map]
  congr 1
  · simp
  · apply List.map_congr_left
    intro a _
    simp only [Function.comp_apply]
    push_cast
    omega

theorem ascRange_append (lo : Int) (a b : Nat) :
    ascRange lo (a + b) = ascRange lo a ++ ascRange (lo + a) b := by
  induction a generalizing lo with
  | zero => simp [ascRange]
  | succ a ih =>
      have e1 : a + 1 + b = (a + b) + 1 := by omega
      rw [e1, ascRange_succ, ih (lo + 1), ascRange_succ]
      simp only [List.cons_append]
      have e2 : lo + 1 + (a : Int) = lo + ((a : Nat) + 1 : Nat) := by push_cast; omega
      rw [e2]

theorem ascRange_sorted (lo : Int) (n : Nat) :
    List.Sorted (· ≤ ·) (ascRange lo n) := by
  induction n generalizing lo with
  | zero => simp [ascRange]
  | succ n ih =>
      rw [ascRange_succ, List.sorted_cons]
      refine ⟨?_, ih (lo + 1)⟩
      intro b hb
      simp only [ascRange, List.mem_map, List.mem_range] at hb
      obtain ⟨i, _, rfl⟩ := hb
      omega

theorem sortInt_eq_of_sorted (l : List Int) (h : List.Sorted (· ≤ ·) l) :
    sortInt l = l :=
  List.eq_of_perm_of_sorted (List.perm_insertionSort _ l)
    (List.sorted_insertionSort _ l) h

theorem sortInt_eq_reverse_of_sorted (l : List Int)
    (h : List.Sorted (· ≤ ·) l.reverse) : sortInt l = l.reverse :=
  List.eq_of_perm_of_sorted
    ((List.perm_insertionSort _ l).trans (List.reverse_perm l).symm)
    (List.sorted_insertionSort _ l) h

theorem map_sub_intRange1 (c n : Int) :
    (intRange1 n).map (fun i => c - i) =
      (ascRange (c - n.toNat) n.toNat).reverse := by
  apply List.ext_getElem
  · simp [intRange1, ascRange]
  · intro i h1 h2
    simp only [intRange1, ascRange, List.getElem_reverse, List.getElem_map,
      List.getElem_range, List.length_map, List.length_range] at h1 h2 ⊢
    omega

theorem map_add_intRange1 (c n : Int) :
    (intRange1 n).map (fun i => c + i) = ascRange (c + 1) n.toNat := by
  apply List.ext_getElem
  · simp [intRange1, ascRange]
  · intro i h1 h2
    simp only [intRange1, ascRange, List.getElem_map, List.getElem_range,
      List.length_map, List.length_range] at h1 h2 ⊢
    omega

/-- Assembling `sorted pages_before`, the current page, and
`sorted pages_after` yields one run of consecutive integers. -/
theorem window_assemble (c nb na : Int) (hnb : 0 ≤ nb) (hna : 0 ≤ na) :
    sortInt ((intRange1 nb).map (fun i => c - i)) ++
      c :: sortInt ((intRange1 na).map (fun i => c + i)) =
      ascRange (c - nb) (nb + na + 1).toNat := by
  rw [map_sub_intRange1, map_add_intRange1,
    sortInt_eq_reverse_of_sorted _ (by rw [List.reverse_reverse]; exact ascRange_sorted _ _),
    sortInt_eq_of_sorted _ (ascRange_sorted _ _), List.reverse_reverse]
  have e0 : c - (nb.toNat : Int) = c - nb := by omega
  have e1 : c :: ascRange (c + 1) na.toNat = ascRange c (na.toNat + 1) := by
    rw [ascRange_succ]
  have e2 : (nb + na + 1).toNat = nb.toNat + (na.toNat + 1) := by omega
  rw [e0, e1, e2]
  conv_rhs => rw [ascRange_append]
  have e3 : c - nb + (nb.toNat : Int) = c := by omega
  rw [e3]

/-- The arithmetic core of `get_pagination`: the clamped and redistributed
window halves always total `min(maxWindowLen, totalPages) - 1` and stay
inside `[1, totalPages]`, provided the current page is in range. -/
theorem pagination_core (T c maxLen m mb ma nb na na2 nb2 : Int)
    (hc : 1 ≤ c) (hcT : c ≤ T) (hm : 1 ≤ maxLen)
    (em : m = min maxLen T)
    (emb : mb = ceilDivI m 2 - 1) (ema : ma = m / 2)
    (enb : nb = min (c - 1) mb) (ena : na = min (T - c) ma)
    (ena2 : na2 = if nb < mb then na + (mb - nb) else na)
    (enb2 : nb2 = if na2 < ma then nb + (ma - na2) else nb) :
    nb2 + na2 + 1 = m ∧ 0 ≤ nb2 ∧ 0 ≤ na2 ∧ 1 ≤ c - nb2 ∧ c + na2 ≤ T := by
  subst em emb ema enb ena ena2 enb2
  simp only [ceilDivI]
  split <;> split <;> omega

/-- The window produced by `paginationCompute` is a run of exactly
`min maxLen totalPages` consecutive page numbers inside `[1, totalPages]`. -/
theorem paginationCompute_window (hits start rows maxLen : Int)
    (h1 : 1 ≤ hits) (h2 : 0 ≤ start) (h3 : 1 ≤ rows) (h4 : 1 ≤ maxLen)
    (h5 : (paginationCompute hits start rows maxLen).current_page ≤
          (paginationCompute hits start rows maxLen).num_total_pages) :
    ∃ lo : Int,
      (paginationCompute hits start rows maxLen).pages_before ++
        (paginationCompute hits start rows maxLen).current_page ::
        (paginationCompute hits start rows maxLen).pages_after =
        ascRange lo (min maxLen (paginationCompute hits start rows maxLen).num_total_pages).toNat ∧
      ((paginationCompute hits start rows maxLen).pages_before ++
        (paginationCompute hits start rows maxLen).current_page ::
        (paginationCompute hits start rows maxLen).pages_after).length =
        (min maxLen (paginationCompute hits start rows maxLen).num_total_pages).toNat ∧
      1 ≤ lo ∧
      lo + min maxLen (paginationCompute hits start rows maxLen).num_total_pages - 1 ≤
        (paginationCompute hits start rows maxLen).num_total_pages := by
  simp only [paginationCompute] at h5 ⊢
  obtain ⟨k1, k2, k3, k4, k5⟩ :=
    pagination_core (ceilDivI hits rows) (start / rows + 1) maxLen _ _ _ _ _ _ _
      (by have := Int.ediv_nonneg h2 (by omega : (0:Int) ≤ rows); omega)
      h5 h4 rfl rfl rfl rfl rfl rfl rfl
  rw [window_assemble _ _ _ k2 k3]
  refine ⟨start / rows + 1 -
      (if (if min (start / rows + 1 - 1) (ceilDivI (min maxLen (ceilDivI hits rows)) 2 - 1) <
            ceilDivI (min maxLen (ceilDivI hits rows)) 2 - 1
          then min (ceilDivI hits rows - (start / rows + 1)) (min maxLen (ceilDivI hits rows) / 2) +
            (ceilDivI (min maxLen (ceilDivI hits rows)) 2 - 1 -
              min (start / rows + 1 - 1) (ceilDivI (min maxLen (ceilDivI hits rows)) 2 - 1))
          else min (ceilDivI hits rows - (start / rows + 1)) (min maxLen (ceilDivI hits rows) / 2)) <
            min maxLen (ceilDivI hits rows) / 2
       then min (start / rows + 1 - 1) (ceilDivI (min maxLen (ceilDivI hits rows)) 2 - 1) +
            (min maxLen (ceilDivI hits rows) / 2 -
              (if min (start / rows + 1 - 1) (ceilDivI (min maxLen (ceilDivI hits rows)) 2 - 1) <
                  ceilDivI (min maxLen (ceilDivI hits rows)) 2 - 1
               then min (ceilDivI hits rows - (start / rows + 1)) (min maxLen (ceilDivI hits rows) / 2) +
                 (ceilDivI (min maxLen (ceilDivI hits rows)) 2 - 1 -
                   min (start / rows + 1 - 1) (ceilDivI (min maxLen (ceilDivI hits rows)) 2 - 1))
               else min (ceilDivI hits rows - (start / rows + 1)) (min maxLen (ceilDivI hits rows) / 2)))
       else min (start / rows + 1 - 1) (ceilDivI (min maxLen (ceilDivI hits rows)) 2 - 1)),
    ?_, ?_, ?_, ?_⟩
  · congr 1
    omega
  · rw [ascRange_length]
    omega
  · omega
  · omega

/-- C6: for a fresh response with hits >= 1, start >= 0, rows_per_page >= 1
and max_pagination_len >= 1 whose computed current page is within
[1, num_total_pages], the window emitted by `get_pagination` — pages_before,
the current page, and pages_after — is exactly
`min max_pagination_len num_total_pages` distinct consecutive page numbers,
all between 1 and num_total_pages: slots unused on a short side are
redistributed to the other side, and the window shrinks below the requested
length only when fewer pages exist in total. -/
theorem C6_window_exact (r : SearchResponseMixin) (rows maxLen : Int)
    (P : Pagination) (r2 : SearchResponseMixin)
    (hfresh : r.pagination = none)
    (h1 : 1 ≤ r.get_hits) (h2 : 0 ≤ r.get_start_count)
    (h3 : 1 ≤ rows) (h4 : 1 ≤ maxLen)
    (hP : r.get_pagination rows maxLen = (P, r2))
    (h5 : P.current_page ≤ P.num_total_pages) :
    ∃ lo : Int,
      P.pages_before ++ P.current_page :: P.pages_after =
        ascRange lo (min maxLen P.num_total_pages).toNat ∧
      (P.pages_before ++ P.current_page :: P.pages_after).length =
        (min maxLen P.num_total_pages).toNat ∧
      1 ≤ lo ∧
      lo + min maxLen P.num_total_pages - 1 ≤ P.num_total_pages := by
  have h := hP
  simp only [SearchResponseMixin.get_pagination, hfresh] at h
  have hPeq : paginationCompute r.get_hits r.get_start_count rows maxLen = P :=
    congrArg Prod.fst h
  subst hPeq
  exact paginationCompute_window _ _ _ _ h1 h2 h3 h4 h5

/-- Witness for C6: hits=7, start=0, rows=2, window length 3 gives
total=4, current=1, window [1, 2, 3]. -/
theorem C6_window_exact_witness :
    ∃ lo : Int,
      (Pagination.mk 3 4 1 [] [2, 3]).pages_before ++
        (Pagination.mk 3 4 1 [] [2, 3]).current_page ::
        (Pagination.mk 3 4 1 [] [2, 3]).pages_after =
        ascRange lo (min 3 (Pagination.mk 3 4 1 [] [2, 3]).num_total_pages).toNat ∧
      ((Pagination.mk 3 4 1 [] [2, 3]).pages_before ++
        (Pagination.mk 3 4 1 [] [2, 3]).current_page ::
        (Pagination.mk 3 4 1 [] [2, 3]).pages_after).length =
        (min 3 (Pagination.mk 3 4 1 [] [2, 3]).num_total_pages).toNat ∧
      1 ≤ lo ∧
      lo + min 3 (Pagination.mk 3 4 1 [] [2, 3]).num_total_pages - 1 ≤
        (Pagination.mk 3 4 1 [] [2, 3]).num_total_pages :=
  C6_window_exact
    (SearchResponseMixin.new
      [("response", JVal.obj [("numFound", JVal.int 7), ("start", JVal.int 0)])]
      (SearchRequest.new "q"))
    2 3 (Pagination.mk 3 4 1 [] [2, 3])
    ⟨[("response", JVal.obj [("numFound", JVal.int 7), ("start", JVal.int 0)])],
      SearchRequest.new "q", some (Pagination.mk 3 4 1 [] [2, 3])⟩
    rfl (by decide) (by decide) (by decide) (by decide) rfl (by decide)

/-! ### C9: idempotence of the docset highlight merge -/

theorem aset_idem {α : Type} (m : List (String × α)) (k : String) (v : α)
    (h : alookup m k = some v) : aset m k v = m := by
  induction m with
  | nil => simp [alookup] at h
  | cons a rest ih =>
      obtain ⟨k0, v0⟩ := a
      by_cases h1 : k0 = k
      · subst h1
        simp [alookup] at h
        simp [aset, h]
      · simp [alookup, h1] at h
        simp [aset, h1, ih h]

theorem aset_aset_same {α : Type} (m : List (String × α)) (k : String) (v : α) :
    aset (aset m k v) k v = aset m k v :=
  aset_idem _ _ _ (by rw [alookup_aset]; simp)

theorem mergeDoc_idem (hm : Json) (d d' : JVal)
    (h : mergeDoc hm d = .ok d') : mergeDoc hm d' = .ok d' := by
  match d with
  | .jnull | .str _ | .int _ | .arr _ => simp [mergeDoc] at h
  | .obj dm =>
      simp only [mergeDoc] at h
      split at h <;> try (exact Except.noConfusion h)
      rename_i sid hid
      split at h <;> try (exact Except.noConfusion h)
      rename_i hl hhl
      simp only [Except.ok.injEq] at h
      subst h
      have hid2 : alookup (aset dm "highlights" hl) "id" = some (.str sid) := by
        rw [alookup_aset]
        simp [hid]
      simp only [mergeDoc, hid2, hhl, aset_aset_same]

theorem mergeDocs_idem (hm : Json) (ds ds' : List JVal)
    (h : mergeDocs hm ds = .ok ds') : mergeDocs hm ds' = .ok ds' := by
  induction ds generalizing ds' with
  | nil =>
      simp only [mergeDocs, Except.ok.injEq] at h
      subst h
      rfl
  | cons d rest ih =>
      simp only [mergeDocs] at h
      split at h <;> try (exact Except.noConfusion h)
      rename_i d2 hd
      split at h <;> try (exact Except.noConfusion h)
      rename_i rest2 hr
      simp only [Except.ok.injEq] at h
      subst h
      simp only [mergeDocs, mergeDoc_idem hm d d2 hd, ih rest2 hr]

/-- C9: if the originating query requested highlighting and the payload has
a highlighting map, then whenever `get_docset` returns a docset at all, a
second call on the resulting state returns the very same docset and state:
the repeated merge neither raises nor duplicates or accumulates fragments. -/
theorem C9_docset_idempotent (r : SearchResponseMixin) (hm : Json)
    (d : JVal) (r1 : SearchResponseMixin)
    (hhl : r.request.highlights_on = true)
    (hkey : alookup r.raw "highlighting" = some (.obj hm))
    (h : r.get_docset = .ok (d, r1)) :
    r1.get_docset = .ok (d, r1) := by
  simp only [SearchResponseMixin.get_docset] at h
  split at h
  · rename_i hresp
    simp only [Except.ok.injEq, Prod.mk.injEq] at h
    obtain ⟨rfl, rfl⟩ := h
    simp only [SearchResponseMixin.get_docset, hresp]
  · rename_i rm hresp
    rw [hhl] at h
    simp only [hkey, if_true] at h
    split at h <;> try (exact Except.noConfusion h)
    rename_i docs hdocs
    split at h <;> try (exact Except.noConfusion h)
    rename_i docs2 hmerge
    simp only [Except.ok.injEq, Prod.mk.injEq] at h
    obtain ⟨rfl, rfl⟩ := h
    simp only [SearchResponseMixin.get_docset]
    have e1 : alookup (aset r.raw "response" (.obj (aset rm "docs" (.arr docs2))))
        "response" = some (.obj (aset rm "docs" (.arr docs2))) := by
      rw [alookup_aset]
      simp
    rw [e1]
    simp only [hhl]
    have e2 : alookup (aset r.raw "response" (.obj (aset rm "docs" (.arr docs2))))
        "highlighting" = some (.obj hm) := by
      rw [alookup_aset]
      simp [hkey]
    have e3 : (alookup (aset rm "docs" (.arr docs2)) "docs").getD (.arr []) =
        .arr docs2 := by
      rw [alookup_aset]
      simp
    simp only [e2, e3, if_true, mergeDocs_idem hm docs docs2 hmerge,
      aset_aset_same]
  · exact Except.noConfusion h

/-- Witness for C9: one document with id `d1`, highlighting keyed by `d1`;
the second `get_docset` call returns the already-merged docset unchanged. -/
theorem C9_docset_idempotent_witness :
    (SearchResponseMixin.mk
        [("response", JVal.obj [("docs", JVal.arr
            [JVal.obj [("id", JVal.str "d1"),
                       ("highlights", JVal.obj [("title", JVal.arr [JVal.str "frag"])])]])]),
         ("highlighting", JVal.obj [("d1",
            JVal.obj [("title", JVal.arr [JVal.str "frag"])])])]
        ((SearchRequest.new "q").add_highlight "title" none none) none).get_docset =
      .ok (JVal.arr
            [JVal.obj [("id", JVal.str "d1"),
                       ("highlights", JVal.obj [("title", JVal.arr [JVal.str "frag"])])]],
        SearchResponseMixin.mk
          [("response", JVal.obj [("docs", JVal.arr
              [JVal.obj [("id", JVal.str "d1"),
                         ("highlights", JVal.obj [("title", JVal.arr [JVal.str "frag"])])]])]),
           ("highlighting", JVal.obj [("d1",
              JVal.obj [("title", JVal.arr [JVal.str "frag"])])])]
          ((SearchRequest.new "q").add_highlight "title" none none) none) :=
  C9_docset_idempotent
    (SearchResponseMixin.new
      [("response", JVal.obj [("docs", JVal.arr [JVal.obj [("id", JVal.str "d1")]])]),
       ("highlighting", JVal.obj [("d1",
          JVal.obj [("title", JVal.arr [JVal.str "frag"])])])]
      ((SearchRequest.new "q").add_highlight "title" none none))
    [("d1", JVal.obj [("title", JVal.arr [JVal.str "frag"])])]
    (JVal.arr
      [JVal.obj [("id", JVal.str "d1"),
                 ("highlights", JVal.obj [("title", JVal.arr [JVal.str "frag"])])]])
    (SearchResponseMixin.mk
      [("response", JVal.obj [("docs", JVal.arr
          [JVal.obj [("id", JVal.str "d1"),
                     ("highlights", JVal.obj [("title", JVal.arr [JVal.str "frag"])])]])]),
       ("highlighting", JVal.obj [("d1",
          JVal.obj [("title", JVal.arr [JVal.str "frag"])])])]
      ((SearchRequest.new "q").add_highlight "title" none none) none)
    rfl rfl rfl

/-! ### C4: facet round-trip -/

theorem takeWhile_word_append (xs : List Char) (c : Char) (ys : List Char)
    (hx : ∀ a ∈ xs, isWordChar a = true) (hc : isWordChar c = false) :
    (xs ++ c :: ys).takeWhile isWordChar = xs := by
  induction xs with
  | nil => simp [List.takeWhile_cons, hc]
  | cons a rest ih =>
      have ha : isWordChar a = true := hx a (List.mem_cons_self a rest)
      simp only [List.cons_append, List.takeWhile_cons, ha, if_true]
      rw [ih (fun b hb => hx b (List.mem_cons_of_mem a hb))]

theorem dropWhile_word_append (xs : List Char) (c : Char) (ys : List Char)
    (hx : ∀ a ∈ xs, isWordChar a = true) (hc : isWordChar c = false) :
    (xs ++ c :: ys).dropWhile isWordChar = c :: ys := by
  induction xs with
  | nil => simp [List.dropWhile_cons, hc]
  | cons a rest ih =>
      have ha : isWordChar a = true := hx a (List.mem_cons_self a rest)
      simp only [List.cons_append, List.dropWhile_cons, ha, if_true]
      exact ih (fun b hb => hx b (List.mem_cons_of_mem a hb))

theorem takeWhile_word_all (xs : List Char)
    (hx : ∀ a ∈ xs, isWordChar a = true) :
    xs.takeWhile isWordChar = xs := by
  induction xs with
  | nil => rfl
  | cons a rest ih =>
      have ha : isWordChar a = true := hx a (List.mem_cons_self a rest)
      simp only [List.takeWhile_cons, ha, if_true]
      rw [ih (fun b hb => hx b (List.mem_cons_of_mem a hb))]

theorem word_append_inj (x1 x2 : List Char) (c : Char) (t1 t2 : List Char)
    (hc : isWordChar c = false)
    (h1 : ∀ a ∈ x1, isWordChar a = true) (h2 : ∀ a ∈ x2, isWordChar a = true)
    (heq : x1 ++ c :: t1 = x2 ++ c :: t2) : x1 = x2 ∧ t1 = t2 := by
  have ht := congrArg (List.takeWhile isWordChar) heq
  rw [takeWhile_word_append x1 c t1 h1 hc, takeWhile_word_append x2 c t2 h2 hc] at ht
  have hd := congrArg (List.dropWhile isWordChar) heq
  rw [dropWhile_word_append x1 c t1 h1 hc, dropWhile_word_append x2 c t2 h2 hc] at hd
  simp only [List.cons.injEq, true_and] at hd
  exact ⟨ht, hd⟩

theorem fkey_data (f kind : String) :
    (fkey f kind).data =
      'f' :: '.' :: (f.data ++
        ('.' :: 'f' :: 'a' :: 'c' :: 'e' :: 't' :: '.' :: kind.data)) := by
  show ('f' :: '.' :: ((f.data ++ ['.', 'f', 'a', 'c', 'e', 't', '.']) ++ kind.data)) = _
  simp [List.append_assoc]

theorem fkey_ne_facet (f kind : String) : fkey f kind ≠ "facet" := by
  intro h
  have hd := congrArg String.data h
  rw [fkey_data] at hd
  have e : ("facet" : String).data = ['f', 'a', 'c', 'e', 't'] := rfl
  rw [e] at hd
  simp at hd

theorem fkey_ne_facetfield (f kind : String) : fkey f kind ≠ "facet.field" := by
  intro h
  have hd := congrArg String.data h
  rw [fkey_data] at hd
  have e : ("facet.field" : String).data =
      ['f', 'a', 'c', 'e', 't', '.', 'f', 'i', 'e', 'l', 'd'] := rfl
  rw [e] at hd
  simp at hd

theorem fkey_ne_wt (f kind : String) : fkey f kind ≠ "wt" := by
  intro h
  have hd := congrArg String.data h
  rw [fkey_data] at hd
  have e : ("wt" : String).data = ['w', 't'] := rfl
  rw [e] at hd
  simp at hd

theorem fkey_ne_q (f kind : String) : fkey f kind ≠ "q" := by
  intro h
  have hd := congrArg String.data h
  rw [fkey_data] at hd
  have e : ("q" : String).data = ['q'] := rfl
  rw [e] at hd
  simp at hd

theorem fkey_inj (f1 f2 k1 k2 : String)
    (h1 : ∀ a ∈ f1.data, isWordChar a = true)
    (h2 : ∀ a ∈ f2.data, isWordChar a = true)
    (heq : fkey f1 k1 = fkey f2 k2) : f1 = f2 ∧ k1 = k2 := by
  have hd := congrArg String.data heq
  rw [fkey_data, fkey_data] at hd
  simp only [List.cons.injEq, true_and] at hd
  have hw := word_append_inj f1.data f2.data '.' _ _ (by decide) h1 h2 hd
  refine ⟨String.ext hw.1, String.ext ?_⟩
  have h2' := hw.2
  simp only [List.cons.injEq, true_and] at h2'
  exact h2'

theorem wordChk_ne_nil (s : String) (h : wordChk s = true) : s.data ≠ [] := by
  simp only [wordChk, Bool.and_eq_true, Bool.not_eq_true'] at h
  intro hn
  rw [hn] at h
  simp [List.isEmpty] at h

theorem wordChk_all (s : String) (h : wordChk s = true) :
    ∀ a ∈ s.data, isWordChar a = true := by
  simp only [wordChk, Bool.and_eq_true, List.all_eq_true] at h
  exact fun a ha => h.2 a ha

theorem wordChk_ne_empty (s : String) (h : wordChk s = true) : s ≠ "" := by
  intro hn
  exact wordChk_ne_nil s h (by rw [hn])

theorem facetToken_data_some (f k : String) (hk : k ≠ "") :
    (facetToken f (some k)).data =
      '\x7b' :: '!' :: 'e' :: 'x' :: '=' :: 'd' :: 't' :: ' ' ::
      'k' :: 'e' :: 'y' :: '=' :: (k.data ++ '\x7d' :: f.data) := by
  simp only [facetToken, hk, if_false]
  show ('\x7b' :: '!' :: 'e' :: 'x' :: '=' :: 'd' :: 't' :: ' ' ::
      'k' :: 'e' :: 'y' :: '=' :: ((k.data ++ ['\x7d']) ++ f.data)) = _
  simp [List.append_assoc]

theorem not_startsWith_brace (f : String) (hf : wordChk f = true) :
    strStartsWith f "\x7b!ex=dt" = false := by
  unfold strStartsWith
  have e : ("\x7b!ex=dt" : String).data =
      '\x7b' :: '!' :: 'e' :: 'x' :: '=' :: 'd' :: 't' :: [] := rfl
  rw [e]
  match hfd : f.data with
  | [] => exact absurd hfd (wordChk_ne_nil f hf)
  | c :: rest =>
      have hc : isWordChar c = true :=
        wordChk_all f hf c (by rw [hfd]; exact List.mem_cons_self c rest)
      have hne : ('\x7b' == c) = false := by
        rw [beq_eq_false_iff_ne]
        intro hcc
        rw [← hcc] at hc
        simp [isWordChar, Char.isAlphanum, Char.isAlpha, Char.isUpper,
          Char.isLower, Char.isDigit] at hc
      simp [isPfx, hne]

theorem startsWith_token (f k : String) (hk : k ≠ "") :
    strStartsWith (facetToken f (some k)) "\x7b!ex=dt" = true := by
  unfold strStartsWith
  rw [facetToken_data_some f k hk]
  rfl

theorem matchKeyTail_token (k f : String) (hk : wordChk k = true)
    (hf : wordChk f = true) :
    matchKeyTail (k.data ++ '\x7d' :: f.data) = some (k.data, f.data) := by
  have hkw := wordChk_all k hk
  have hfw := wordChk_all f hf
  unfold matchKeyTail
  rw [takeWhile_word_append k.data '\x7d' f.data hkw (by decide),
    dropWhile_word_append k.data '\x7d' f.data hkw (by decide)]
  simp only [takeWhile_word_all f.data hfw]
  rw [if_neg]
  push_neg
  exact ⟨wordChk_ne_nil k hk, wordChk_ne_nil f hf⟩

theorem reSearchKey_at_key (R : List Char) :
    reSearchKey ('\x7b' :: '!' :: 'e' :: 'x' :: '=' :: 'd' :: 't' :: ' ' ::
        'k' :: 'e' :: 'y' :: '=' :: R) =
      match matchKeyTail R with
      | some p => some p
      | none => reSearchKey ('e' :: 'y' :: '=' :: R) := rfl

theorem reSearchKeyStr_token (f k : String) (hk : wordChk k = true)
    (hf : wordChk f = true) :
    reSearchKeyStr (facetToken f (some k)) = some (k, f) := by
  unfold reSearchKeyStr
  rw [facetToken_data_some f k (wordChk_ne_empty k hk), reSearchKey_at_key,
    matchKeyTail_token k f hk hf]

theorem decode_plain (ps : SearchParams) (f : String) (hf : wordChk f = true) :
    decodeFacetField ps f =
      .ok (f, alookup ps (fkey f "limit"), alookup ps (fkey f "mincount"),
           none, alookup ps (fkey f "prefix")) := by
  unfold decodeFacetField
  rw [not_startsWith_brace f hf]
  simp

theorem decode_keyed (ps : SearchParams) (f k : String)
    (hf : wordChk f = true) (hk : wordChk k = true) :
    decodeFacetField ps (facetToken f (some k)) =
      .ok (f, alookup ps (fkey f "limit"), alookup ps (fkey f "mincount"),
           some k, alookup ps (fkey f "prefix")) := by
  unfold decodeFacetField
  rw [startsWith_token f k (wordChk_ne_empty k hk), reSearchKeyStr_token f k hk hf]
  simp

theorem alookup_asetdefault_ne {α : Type} (m : List (String × α)) (k : String)
    (v : α) (s : String) (h : k ≠ s) :
    alookup (asetdefault m k v) s = alookup m s := by
  unfold asetdefault
  split
  · rfl
  · rw [alookup_aset]
    simp [h]

theorem asetdefault_of_some {α : Type} (m : List (String × α)) (k : String)
    (v w : α) (h : alookup m k = some v) : asetdefault m k w = m := by
  unfold asetdefault
  rw [h]

theorem alookup_append_ne (m : SearchParams) (k : String) (v : String)
    (s : String) (h : k ≠ s) :
    alookup (SearchParams.append m k v) s = alookup m s := by
  unfold SearchParams.append
  split
  · rw [alookup_aset]
    simp [h]
  · split
    · rfl
    · rw [alookup_aset]
      simp [h]
  · rfl

theorem fkey_ne_kind (f k1 k2 : String) (h : k1.data ≠ k2.data) :
    fkey f k1 ≠ fkey f k2 := by
  intro heq
  have hd := congrArg String.data heq
  rw [fkey_data, fkey_data] at hd
  simp only [List.cons.injEq, true_and] at hd
  have := List.append_cancel_left hd
  simp only [List.cons.injEq, true_and] at this
  exact h this

theorem add_facet_params_pres (r : SearchRequest) (field : String)
    (limit mincount : Option Int) (okey pfx : Option String) (s : String)
    (h1 : s ≠ "facet") (h2 : s ≠ "facet.field")
    (h3 : s ≠ fkey field "limit") (h4 : s ≠ fkey field "mincount")
    (h5 : s ≠ fkey field "prefix") :
    alookup (r.add_facet field limit mincount okey pfx).params s =
      alookup r.params s := by
  simp only [SearchRequest.add_facet]
  cases limit <;> cases mincount <;> cases pfx <;>
    simp only [] <;>
    (try split_ifs) <;>
    simp [alookup_aset, alookup_append_ne, alookup_asetdefault_ne,
      Ne.symm h1, Ne.symm h2, Ne.symm h3, Ne.symm h4, Ne.symm h5]

theorem add_facet_facet (r : SearchRequest) (field : String)
    (limit mincount : Option Int) (okey pfx : Option String) :
    alookup (r.add_facet field limit mincount okey pfx).params "facet" =
      some (.s "true") := by
  simp only [SearchRequest.add_facet]
  cases limit <;> cases mincount <;> cases pfx <;>
    simp only [] <;>
    (try split_ifs) <;>
    simp [alookup_aset, alookup_append_ne, alookup_asetdefault_ne,
      fkey_ne_facet field "limit", fkey_ne_facet field "mincount",
      fkey_ne_facet field "prefix"]

theorem add_facet_facetfield_some (r : SearchRequest) (field : String)
    (limit mincount : Option Int) (okey pfx : Option String) (ts : List String)
    (h : alookup r.params "facet.field" = some (.ls ts))
    (hnotin : facetToken field okey ∉ ts) :
    alookup (r.add_facet field limit mincount okey pfx).params "facet.field" =
      some (.ls (ts ++ [facetToken field okey])) := by
  simp only [SearchRequest.add_facet]
  have e1 : alookup (aset r.params "facet" (.s "true")) "facet.field" =
      some (.ls ts) := by
    rw [alookup_aset]
    simp [h]
  have e2 : asetdefault (aset r.params "facet" (.s "true")) "facet.field"
      (.ls []) = aset r.params "facet" (.s "true") :=
    asetdefault_of_some _ _ _ _ e1
  have e3 : alookup (SearchParams.append (aset r.params "facet" (.s "true"))
      "facet.field" (facetToken field okey)) "facet.field" =
      some (.ls (ts ++ [facetToken field okey])) := by
    unfold SearchParams.append
    rw [e1]
    simp only [hnotin, if_false]
    rw [alookup_aset]
    simp
  cases limit <;> cases mincount <;> cases pfx <;>
    simp only [e2] <;>
    (try split_ifs) <;>
    simp [alookup_aset, e3, fkey_ne_facetfield field "limit",
      fkey_ne_facetfield field "mincount", fkey_ne_facetfield field "prefix"]

theorem add_facet_facetfield_none (r : SearchRequest) (field : String)
    (limit mincount : Option Int) (okey pfx : Option String)
    (h : alookup r.params "facet.field" = none) :
    alookup (r.add_facet field limit mincount okey pfx).params "facet.field" =
      some (.ls [facetToken field okey]) := by
  simp only [SearchRequest.add_facet]
  have e1 : alookup (aset r.params "facet" (.s "true")) "facet.field" = none := by
    rw [alookup_aset]
    simp [h]
  have e2 : alookup (asetdefault (aset r.params "facet" (.s "true"))
      "facet.field" (.ls [])) "facet.field" = some (.ls []) := by
    unfold asetdefault
    rw [e1, alookup_aset]
    simp
  have e3 : alookup (SearchParams.append (asetdefault
      (aset r.params "facet" (.s "true")) "facet.field" (.ls []))
      "facet.field" (facetToken field okey)) "facet.field" =
      some (.ls [facetToken field okey]) := by
    unfold SearchParams.append
    rw [e2]
    simp only [List.not_mem_nil, if_false, List.nil_append]
    rw [alookup_aset]
    simp
  cases limit <;> cases mincount <;> cases pfx <;>
    simp only [] <;>
    (try split_ifs) <;>
    simp [alookup_aset, e3, fkey_ne_facetfield field "limit",
      fkey_ne_facetfield field "mincount", fkey_ne_facetfield field "prefix"]

theorem add_facet_scoped (r : SearchRequest) (field : String)
    (limit mincount : Option Int) (okey pfx : Option String) :
    (alookup (r.add_facet field limit mincount okey pfx).params (fkey field "limit") =
      match limit with
      | some n => if n = 0 then alookup r.params (fkey field "limit") else some (.i n)
      | none => alookup r.params (fkey field "limit")) ∧
    (alookup (r.add_facet field limit mincount okey pfx).params (fkey field "mincount") =
      match mincount with
      | some n => if n = 0 then alookup r.params (fkey field "mincount") else some (.i n)
      | none => alookup r.params (fkey field "mincount")) ∧
    (alookup (r.add_facet field limit mincount okey pfx).params (fkey field "prefix") =
      match pfx with
      | some p => if p = "" then alookup r.params (fkey field "prefix") else some (.s p)
      | none => alookup r.params (fkey field "prefix")) := by
  have b1 : ∀ kind : String,
      alookup (SearchParams.append (asetdefault
        (aset r.params "facet" (.s "true")) "facet.field" (.ls []))
        "facet.field" (facetToken field okey)) (fkey field kind) =
      alookup r.params (fkey field kind) := by
    intro kind
    rw [alookup_append_ne _ _ _ _ (Ne.symm (fkey_ne_facetfield field kind)),
      alookup_asetdefault_ne _ _ _ _ (Ne.symm (fkey_ne_facetfield field kind)),
      alookup_aset]
    simp [Ne.symm (fkey_ne_facet field kind)]
  simp only [SearchRequest.add_facet]
  cases limit <;> cases mincount <;> cases pfx <;>
    simp only [] <;> (try split_ifs) <;>
    simp [alookup_aset, b1,
      fkey_ne_kind field "prefix" "limit" (by decide),
      fkey_ne_kind field "prefix" "mincount" (by decide),
      fkey_ne_kind field "mincount" "limit" (by decide),
      fkey_ne_kind field "mincount" "prefix" (by decide),
      fkey_ne_kind field "limit" "mincount" (by decide),
      fkey_ne_kind field "limit" "prefix" (by decide)]

theorem addFacets_pres (ds : List FacetSpec) (r : SearchRequest) (s : String)
    (h1 : s ≠ "facet") (h2 : s ≠ "facet.field")
    (h3 : ∀ d ∈ ds, s ≠ fkey d.field "limit" ∧ s ≠ fkey d.field "mincount" ∧
          s ≠ fkey d.field "prefix") :
    alookup (addFacets r ds).params s = alookup r.params s := by
  induction ds generalizing r with
  | nil => rfl
  | cons d rest ih =>
      have step : addFacets r (d :: rest) =
          addFacets (r.add_facet d.field d.limit d.mincount d.output_key d.pfx)
            rest := rfl
      rw [step, ih _ (fun e he => h3 e (List.mem_cons_of_mem d he))]
      obtain ⟨g1, g2, g3⟩ := h3 d (List.mem_cons_self d rest)
      exact add_facet_params_pres r d.field d.limit d.mincount d.output_key
        d.pfx s h1 h2 g1 g2 g3

theorem addFacets_facet (ds : List FacetSpec) (r : SearchRequest)
    (hne : ds ≠ []) :
    alookup (addFacets r ds).params "facet" = some (.s "true") := by
  induction ds generalizing r with
  | nil => exact absurd rfl hne
  | cons d rest ih =>
      match rest with
      | [] => exact add_facet_facet r d.field d.limit d.mincount d.output_key d.pfx
      | d2 :: rest2 =>
          have step : addFacets r (d :: d2 :: rest2) =
              addFacets (r.add_facet d.field d.limit d.mincount d.output_key d.pfx)
                (d2 :: rest2) := rfl
          rw [step]
          exact ih _ (by simp)

theorem addFacets_tokens (ds : List FacetSpec) (r : SearchRequest)
    (ts : List String)
    (h : alookup r.params "facet.field" = some (.ls ts))
    (hnd : (ts ++ ds.map tokenOf).Nodup) :
    alookup (addFacets r ds).params "facet.field" =
      some (.ls (ts ++ ds.map tokenOf)) := by
  induction ds generalizing r ts with
  | nil => simpa using h
  | cons d rest ih =>
      have step : addFacets r (d :: rest) =
          addFacets (r.add_facet d.field d.limit d.mincount d.output_key d.pfx)
            rest := rfl
      rw [step]
      have hnotin : facetToken d.field d.output_key ∉ ts := by
        intro hmem
        rw [List.nodup_append] at hnd
        exact hnd.2.2 hmem (by
          simp only [List.map_cons, List.mem_cons]
          exact Or.inl rfl)
      have h2 := add_facet_facetfield_some r d.field d.limit d.mincount
        d.output_key d.pfx ts h hnotin
      have hnd2 : ((ts ++ [facetToken d.field d.output_key]) ++
          rest.map tokenOf).Nodup := by
        rw [List.append_assoc]
        simpa [tokenOf] using hnd
      have := ih _ _ h2 hnd2
      rw [this]
      simp [tokenOf, List.append_assoc]

theorem fkey_ne_of_field_ne (f1 f2 k1 k2 : String)
    (h1 : ∀ a ∈ f1.data, isWordChar a = true)
    (h2 : ∀ a ∈ f2.data, isWordChar a = true)
    (hne : f1 ≠ f2) : fkey f1 k1 ≠ fkey f2 k2 := by
  intro heq
  exact hne (fkey_inj f1 f2 k1 k2 h1 h2 heq).1

theorem goodSpec_field_word (d : FacetSpec) (hg : goodSpec d = true) :
    ∀ a ∈ d.field.data, isWordChar a = true := by
  simp only [goodSpec, Bool.and_eq_true] at hg
  exact wordChk_all d.field hg.1.1.1.1

theorem addFacets_scoped (ds : List FacetSpec) (r : SearchRequest)
    (d : FacetSpec) (hd : d ∈ ds)
    (hgood : ∀ e ∈ ds, goodSpec e = true)
    (hnd : (ds.map FacetSpec.field).Nodup) :
    (alookup (addFacets r ds).params (fkey d.field "limit") =
      match d.limit with
      | some n => if n = 0 then alookup r.params (fkey d.field "limit")
                  else some (.i n)
      | none => alookup r.params (fkey d.field "limit")) ∧
    (alookup (addFacets r ds).params (fkey d.field "mincount") =
      match d.mincount with
      | some n => if n = 0 then alookup r.params (fkey d.field "mincount")
                  else some (.i n)
      | none => alookup r.params (fkey d.field "mincount")) ∧
    (alookup (addFacets r ds).params (fkey d.field "prefix") =
      match d.pfx with
      | some p => if p = "" then alookup r.params (fkey d.field "prefix")
                  else some (.s p)
      | none => alookup r.params (fkey d.field "prefix")) := by
  induction ds generalizing r with
  | nil => exact absurd hd (List.not_mem_nil d)
  | cons d0 rest ih =>
      have step : addFacets r (d0 :: rest) =
          addFacets (r.add_facet d0.field d0.limit d0.mincount d0.output_key
            d0.pfx) rest := rfl
      have hw0 : ∀ a ∈ d0.field.data, isWordChar a = true :=
        goodSpec_field_word d0 (hgood d0 (List.mem_cons_self d0 rest))
      rcases List.mem_cons.1 hd with rfl | hdrest
      · -- d is the head: one step sets the scoped keys, the rest preserve them
        have hw : ∀ a ∈ d.field.data, isWordChar a = true := hw0
        have hpres : ∀ kind : String,
            alookup (addFacets (r.add_facet d.field d.limit d.mincount
              d.output_key d.pfx) rest).params (fkey d.field kind) =
            alookup (r.add_facet d.field d.limit d.mincount d.output_key
              d.pfx).params (fkey d.field kind) := by
          intro kind
          apply addFacets_pres
          · exact fkey_ne_facet d.field kind
          · exact fkey_ne_facetfield d.field kind
          · intro e he
            have hwe : ∀ a ∈ e.field.data, isWordChar a = true :=
              goodSpec_field_word e (hgood e (List.mem_cons_of_mem _ he))
            have hfne : d.field ≠ e.field := by
              intro hco
              simp only [List.map_cons, List.nodup_cons] at hnd
              exact hnd.1 (hco ▸ List.mem_map_of_mem FacetSpec.field he)
            exact ⟨fkey_ne_of_field_ne _ _ _ _ hw hwe hfne,
              fkey_ne_of_field_ne _ _ _ _ hw hwe hfne,
              fkey_ne_of_field_ne _ _ _ _ hw hwe hfne⟩
        rw [step]
        obtain ⟨s1, s2, s3⟩ := add_facet_scoped r d.field d.limit d.mincount
          d.output_key d.pfx
        exact ⟨by rw [hpres "limit", s1], by rw [hpres "mincount", s2],
          by rw [hpres "prefix", s3]⟩
      · -- d is further down: the head's step preserves d's scoped keys
        have hw : ∀ a ∈ d.field.data, isWordChar a = true :=
          goodSpec_field_word d (hgood d hd)
        have hfne : d.field ≠ d0.field := by
          intro hco
          simp only [List.map_cons, List.nodup_cons] at hnd
          exact hnd.1 (hco ▸ List.mem_map_of_mem FacetSpec.field hdrest)
        have hbase : ∀ kind : String,
            alookup (r.add_facet d0.field d0.limit d0.mincount d0.output_key
              d0.pfx).params (fkey d.field kind) =
            alookup r.params (fkey d.field kind) := by
          intro kind
          apply add_facet_params_pres
          · exact fkey_ne_facet d.field kind
          · exact fkey_ne_facetfield d.field kind
          · exact fkey_ne_of_field_ne _ _ _ _ hw hw0 hfne
          · exact fkey_ne_of_field_ne _ _ _ _ hw hw0 hfne
          · exact fkey_ne_of_field_ne _ _ _ _ hw hw0 hfne
        have hnd2 : (rest.map FacetSpec.field).Nodup := by
          simp only [List.map_cons, List.nodup_cons] at hnd
          exact hnd.2
        have := ih (r.add_facet d0.field d0.limit d0.mincount d0.output_key
          d0.pfx) hdrest (fun e he => hgood e (List.mem_cons_of_mem d0 he)) hnd2
        rw [step]
        obtain ⟨t1, t2, t3⟩ := this
        refine ⟨?_, ?_, ?_⟩
        · rw [t1, hbase "limit"]
        · rw [t2, hbase "mincount"]
        · rw [t3, hbase "prefix"]

theorem goodSpec_okey_word (d : FacetSpec) (k : String)
    (hg : goodSpec d = true) (hk : d.output_key = some k) : wordChk k = true := by
  simp only [goodSpec, Bool.and_eq_true, hk] at hg
  exact hg.1.1.1.2

theorem goodSpec_limit_ne (d : FacetSpec) (hg : goodSpec d = true) :
    d.limit ≠ some 0 := by
  simp only [goodSpec, Bool.and_eq_true, bne_iff_ne] at hg
  exact hg.1.1.2

theorem goodSpec_mincount_ne (d : FacetSpec) (hg : goodSpec d = true) :
    d.mincount ≠ some 0 := by
  simp only [goodSpec, Bool.and_eq_true, bne_iff_ne] at hg
  exact hg.1.2

theorem goodSpec_pfx_ne (d : FacetSpec) (hg : goodSpec d = true) :
    d.pfx ≠ some "" := by
  simp only [goodSpec, Bool.and_eq_true, bne_iff_ne] at hg
  exact hg.2

theorem plain_ne_keyed (f f2 k : String) (hf : wordChk f = true)
    (hk : k ≠ "") : f ≠ facetToken f2 (some k) := by
  intro h
  have hd := congrArg String.data h
  rw [facetToken_data_some f2 k hk] at hd
  have : '\x7b' ∈ f.data := by
    rw [hd]
    exact List.mem_cons_self _ _
  have := wordChk_all f hf _ this
  simp [isWordChar, Char.isAlphanum, Char.isAlpha, Char.isUpper,
    Char.isLower, Char.isDigit] at this

theorem token_field_inj (d1 d2 : FacetSpec) (g1 : goodSpec d1 = true)
    (g2 : goodSpec d2 = true) (heq : tokenOf d1 = tokenOf d2) :
    d1.field = d2.field := by
  have w1 : wordChk d1.field = true := by
    simp only [goodSpec, Bool.and_eq_true] at g1
    exact g1.1.1.1.1
  have w2 : wordChk d2.field = true := by
    simp only [goodSpec, Bool.and_eq_true] at g2
    exact g2.1.1.1.1
  unfold tokenOf at heq
  cases hk1 : d1.output_key with
  | none =>
      cases hk2 : d2.output_key with
      | none => simpa [facetToken, hk1, hk2] using heq
      | some k2 =>
          rw [hk1, hk2] at heq
          simp only [facetToken] at heq
          exact absurd heq (plain_ne_keyed d1.field d2.field k2 w1
            (wordChk_ne_empty k2 (goodSpec_okey_word d2 k2 g2 hk2)))
  | some k1 =>
      cases hk2 : d2.output_key with
      | none =>
          rw [hk1, hk2] at heq
          simp only [facetToken] at heq
          exact absurd heq.symm (plain_ne_keyed d2.field d1.field k1 w2
            (wordChk_ne_empty k1 (goodSpec_okey_word d1 k1 g1 hk1)))
      | some k2 =>
          rw [hk1, hk2] at heq
          have hk1w := goodSpec_okey_word d1 k1 g1 hk1
          have hk2w := goodSpec_okey_word d2 k2 g2 hk2
          have hd := congrArg String.data heq
          rw [facetToken_data_some d1.field k1 (wordChk_ne_empty k1 hk1w),
            facetToken_data_some d2.field k2 (wordChk_ne_empty k2 hk2w)] at hd
          simp only [List.cons.injEq, true_and] at hd
          have := word_append_inj k1.data k2.data '\x7d' _ _ (by decide)
            (wordChk_all k1 hk1w) (wordChk_all k2 hk2w) hd
          have hf := this.2
          simp only [List.cons.injEq, true_and] at hf
          exact String.ext hf

theorem tokens_nodup (ds : List FacetSpec)
    (hgood : ∀ d ∈ ds, goodSpec d = true)
    (hnd : (ds.map FacetSpec.field).Nodup) : (ds.map tokenOf).Nodup := by
  apply List.Nodup.map_on ?_ (List.Nodup.of_map _ hnd)
  intro x hx y hy hxy
  exact List.inj_on_of_nodup_map hnd hx hy
    (token_field_inj x y (hgood x hx) (hgood y hy) hxy)

theorem exceptList_map_ok {α β γ : Type} (f : γ → Except PyError β)
    (tok : α → γ) (g : α → β) (l : List α)
    (h : ∀ d ∈ l, f (tok d) = .ok (g d)) :
    exceptList f (l.map tok) = .ok (l.map g) := by
  induction l with
  | nil => rfl
  | cons a rest ih =>
      simp only [List.map_cons, exceptList,
        h a (List.mem_cons_self a rest),
        ih (fun d hd => h d (List.mem_cons_of_mem a hd))]

theorem alookup_new_fkey (q f kind : String) :
    alookup (SearchRequest.new q).params (fkey f kind) = none := by
  simp [SearchRequest.new, alookup, Ne.symm (fkey_ne_wt f kind),
    Ne.symm (fkey_ne_q f kind)]

theorem alookup_new_facetfield (q : String) :
    alookup (SearchRequest.new q).params "facet.field" = none := rfl

theorem decode_token_full (q : String) (ds : List FacetSpec) (d : FacetSpec)
    (hd : d ∈ ds) (hgood : ∀ e ∈ ds, goodSpec e = true)
    (hnd : (ds.map FacetSpec.field).Nodup) :
    decodeFacetField (addFacets (SearchRequest.new q) ds).params (tokenOf d) =
      .ok (expectedFacet d) := by
  have hg := hgood d hd
  have hwf : wordChk d.field = true := by
    simp only [goodSpec, Bool.and_eq_true] at hg
    exact hg.1.1.1.1
  obtain ⟨s1, s2, s3⟩ := addFacets_scoped ds (SearchRequest.new q) d hd hgood hnd
  have v1 : alookup (addFacets (SearchRequest.new q) ds).params
      (fkey d.field "limit") = d.limit.map PVal.i := by
    rw [s1]
    cases hL : d.limit with
    | none => simp [alookup_new_fkey]
    | some n =>
        have : n ≠ 0 := by
          intro h0
          exact goodSpec_limit_ne d hg (by rw [hL, h0])
        simp [this]
  have v2 : alookup (addFacets (SearchRequest.new q) ds).params
      (fkey d.field "mincount") = d.mincount.map PVal.i := by
    rw [s2]
    cases hM : d.mincount with
    | none => simp [alookup_new_fkey]
    | some n =>
        have : n ≠ 0 := by
          intro h0
          exact goodSpec_mincount_ne d hg (by rw [hM, h0])
        simp [this]
  have v3 : alookup (addFacets (SearchRequest.new q) ds).params
      (fkey d.field "prefix") = d.pfx.map PVal.s := by
    rw [s3]
    cases hP : d.pfx with
    | none => simp [alookup_new_fkey]
    | some p =>
        have : p ≠ "" := by
          intro h0
          exact goodSpec_pfx_ne d hg (by rw [hP, h0])
        simp [this]
  cases hk : d.output_key with
  | none =>
      have ht : tokenOf d = d.field := by simp [tokenOf, facetToken, hk]
      rw [ht, decode_plain _ d.field hwf, v1, v2, v3]
      simp [expectedFacet, hk]
  | some k =>
      have hkw := goodSpec_okey_word d k hg hk
      have ht : tokenOf d = facetToken d.field (some k) := by
        simp [tokenOf, hk]
      rw [ht, decode_keyed _ d.field k hwf hkw, v1, v2, v3]
      simp [expectedFacet, hk]

/-- C4 (counterexample): adding the same field twice is collapsed by the
duplicate-suppressing `facet.field` append, so `get_facets` returns one
descriptor where the claim demands two. -/
theorem C4_counterexample :
    (addFacets (SearchRequest.new "q")
      [⟨"a", none, none, none, none⟩, ⟨"a", none, none, none, none⟩]).get_facets =
      .ok [("a", none, none, none, none)] ∧
    ([("a", none, none, none, none)] : List FacetOut) ≠
      ([⟨"a", none, none, none, none⟩, ⟨"a", none, none, none, none⟩].map
        expectedFacet) :=
  ⟨rfl, by decide⟩

/-- C4 (amended): for well-formed facet descriptors — pairwise-distinct
fields, fields and output keys made of word characters, options either
omitted or truthy — `get_facets` after the corresponding `add_facet` calls
on a fresh request returns exactly those descriptors, with the same five
components each, in insertion order. -/
theorem C4_amended_facet_roundtrip (q : String) (ds : List FacetSpec)
    (hgood : ∀ d ∈ ds, goodSpec d = true)
    (hnd : (ds.map FacetSpec.field).Nodup) :
    (addFacets (SearchRequest.new q) ds).get_facets =
      .ok (ds.map expectedFacet) := by
  cases ds with
  | nil => rfl
  | cons d0 rest =>
      have hfacet : alookup (addFacets (SearchRequest.new q)
          (d0 :: rest)).params "facet" = some (.s "true") :=
        addFacets_facet _ _ (by simp)
      have hon : (addFacets (SearchRequest.new q) (d0 :: rest)).facets_on = true := by
        simp [SearchRequest.facets_on, hfacet, PVal.truthy]
      have htoks0 : alookup ((SearchRequest.new q).add_facet d0.field d0.limit
          d0.mincount d0.output_key d0.pfx).params "facet.field" =
          some (.ls [facetToken d0.field d0.output_key]) :=
        add_facet_facetfield_none _ _ _ _ _ _ (alookup_new_facetfield q)
      have hndtok := tokens_nodup (d0 :: rest) hgood hnd
      have htoks : alookup (addFacets (SearchRequest.new q)
          (d0 :: rest)).params "facet.field" =
          some (.ls ((d0 :: rest).map tokenOf)) := by
        have step : addFacets (SearchRequest.new q) (d0 :: rest) =
            addFacets ((SearchRequest.new q).add_facet d0.field d0.limit
              d0.mincount d0.output_key d0.pfx) rest := rfl
        rw [step]
        have hnd1 : ([facetToken d0.field d0.output_key] ++
            rest.map tokenOf).Nodup := by
          simpa [tokenOf] using hndtok
        have := addFacets_tokens rest _ [facetToken d0.field d0.output_key]
          htoks0 hnd1
        rw [this]
        simp [tokenOf]
      have hdec : ∀ d ∈ (d0 :: rest),
          decodeFacetField (addFacets (SearchRequest.new q)
            (d0 :: rest)).params (tokenOf d) = .ok (expectedFacet d) :=
        fun d hd => decode_token_full q (d0 :: rest) d hd hgood hnd
      simp only [SearchRequest.get_facets, hon, if_true, htoks]
      exact exceptList_map_ok _ tokenOf expectedFacet _ hdec

/-- Witness for C4 (amended) on two concrete descriptors, one with an
output key and scoped options, one plain. -/
theorem C4_amended_facet_roundtrip_witness :
    (addFacets (SearchRequest.new "cats")
      [⟨"color", some 10, some 1, some "ckey", some "b"⟩,
       ⟨"year", none, none, none, none⟩]).get_facets =
      .ok ([⟨"color", some 10, some 1, some "ckey", some "b"⟩,
            ⟨"year", none, none, none, none⟩].map expectedFacet) :=
  C4_amended_facet_roundtrip "cats"
    [⟨"color", some 10, some 1, some "ckey", some "b"⟩,
     ⟨"year", none, none, none, none⟩]
    (by decide) (by decide)
